import Mathlib

/-!
Verification of the todoist-cli API client core against its specification.

The Go source is shallowly embedded: the transport retry loop
(`requestCtx` in internal/api/client.go), list-response decoding
(`unmarshalList`), name resolution (`FindProject`, `findSectionID`),
the priority boundary conversion (cmd/todoist/add.go, update.go) and the
bounded-concurrency comment-enrichment fan-out (`runTasks`) are translated
into executable Lean definitions, and the specified properties are proved
about those definitions.
-/

namespace TodoistCli

/-! ## Transport (internal/api/client.go) -/

/-- Upper bound on extra attempts, `maxRetries = 3` in client.go line 21. -/
def maxRetries : Nat := 3

/-- An HTTP response as observed by `requestCtx` after `io.ReadAll`:
status code, the `Retry-After` header value (`resp.Header.Get` returns the
empty string when the header is absent) and the body bytes. -/
structure HttpResponse where
  statusCode : Nat
  retryAfter : String
  body : String
deriving DecidableEq

/-- Outcome of one physical attempt (lines 136-148 of client.go):
either `httpClient.Do` fails (`doError`), or reading the body fails
(`readError`), or a response with a fully read body is obtained. -/
inductive AttemptResult where
  | response (resp : HttpResponse)
  | doError
  | readError
deriving DecidableEq

/-- The dynamic Go `error` value stored in the loop variable `lastErr`.
`retryAfterError` embeds the struct of client.go lines 184-190 (the wait
is held in whole seconds); `otherError` stands for any other error value,
which the wait dispatch at lines 101-114 must be able to handle. -/
inductive GoErr where
  | retryAfterError (after : Int)
  | otherError (msg : String)
deriving DecidableEq

/-- Classified failures returned by `requestCtx`.  `networkError` models
`clerrors.WrapNetworkError`, `authError` models `clerrors.WrapAuthError`
wrapping the API error (both constructors live in the repository's
internal/errors package, which only tags and wraps; modelled from the
spec taxonomy in section 7).  `apiError` is the plain
`fmt.Errorf("API error (%d): %s", ...)` and `maxRetriesExceeded` the
final `fmt.Errorf("max retries exceeded: %w", lastErr)` of line 181. -/
inductive ApiError where
  | networkError (msg : String)
  | authError (status : Nat) (body : String)
  | apiError (status : Nat) (body : String)
  | maxRetriesExceeded (lastErr : Option GoErr)
deriving DecidableEq

/-- Which wait branch of lines 101-114 produced an inter-attempt sleep. -/
inductive WaitKind where
  | rateLimit
  | backoff
deriving DecidableEq

/-- One inter-attempt sleep: its branch and its length in seconds. -/
structure Wait where
  kind : WaitKind
  seconds : Int
deriving DecidableEq

/-- Observable outcome of one `requestCtx` call: how many HTTP attempts
were issued, the sleeps performed before retries in order, and the final
value (body bytes on success, classified error otherwise). -/
structure RequestOutcome where
  attempts : Nat
  waits : List Wait
  result : Except ApiError String

/-- Numeric value of a list of ASCII digit characters. -/
def digitsVal (cs : List Char) : Nat :=
  cs.foldl (fun acc c => acc * 10 + (c.toNat - 48)) 0

/-- Go `strconv.Atoi`: an optional leading sign followed by one or more
ASCII digits, within the 64-bit signed range; anything else is an error
(`none`). -/
def goAtoi (s : String) : Option Int :=
  let signDigits : Int × List Char :=
    match s.data with
    | '-' :: rest => (-1, rest)
    | '+' :: rest => (1, rest)
    | cs => (1, cs)
  if signDigits.2 = [] then none
  else if signDigits.2.all Char.isDigit then
    let n : Int := signDigits.1 * (digitsVal signDigits.2 : Int)
    if -9223372036854775808 ≤ n ∧ n ≤ 9223372036854775807 then some n else none
  else none

/-- The wait chosen on a retried 429, client.go lines 155-160: the parsed
`Retry-After` header when present and parseable as an integer, else the
fixed 5-second fallback. -/
def retryWaitSeconds (retryAfter : String) : Int :=
  if retryAfter ≠ "" then
    match goAtoi retryAfter with
    | some secs => secs
    | none => 5
  else 5

/-- The sleep performed at the top of a loop iteration, client.go lines
98-116: nothing on the first attempt or with no recorded error, the
rate-limit wait when `lastErr` is a `*retryAfterError`, and the
exponential backoff `1 << (attempt-1)` seconds otherwise. -/
def preWaits (attempt : Nat) (lastErr : Option GoErr) : List Wait :=
  if attempt > 0 then
    match lastErr with
    | some (GoErr.retryAfterError secs) => [⟨WaitKind.rateLimit, secs⟩]
    | some (GoErr.otherError _) => [⟨WaitKind.backoff, ((2 : Int) ^ (attempt - 1))⟩]
    | none => []
  else []

/-- The retry loop of `requestCtx`, client.go lines 96-181.  `server`
gives the outcome of the physical attempt with a given index (it stands
for `httpClient.Do` plus `io.ReadAll` against the remote server).
`remaining` counts the loop iterations still permitted by the loop
condition `attempt <= maxRetries` (so the loop is entered with
`remaining = maxRetries + 1`); `attempt` and `lastErr` are the loop
variables.  The context is the non-cancellable `context.Background()`
used by `request`, so the `ctx.Done()` arms never fire. -/
def requestLoop (server : Nat → AttemptResult) :
    Nat → Nat → Option GoErr → RequestOutcome
  | 0, _, lastErr => ⟨0, [], Except.error (ApiError.maxRetriesExceeded lastErr)⟩
  | rem + 1, attempt, lastErr =>
    let pw := preWaits attempt lastErr
    match server attempt with
    | AttemptResult.doError =>
        ⟨1, pw, Except.error (ApiError.networkError "request failed")⟩
    | AttemptResult.readError =>
        ⟨1, pw, Except.error (ApiError.networkError "failed to read response")⟩
    | AttemptResult.response resp =>
        if resp.statusCode = 429 ∧ attempt < maxRetries then
          let rest := requestLoop server rem (attempt + 1)
            (some (GoErr.retryAfterError (retryWaitSeconds resp.retryAfter)))
          ⟨1 + rest.attempts, pw ++ rest.waits, rest.result⟩
        else if resp.statusCode ≥ 400 then
          if resp.statusCode = 401 ∨ resp.statusCode = 403 then
            ⟨1, pw, Except.error (ApiError.authError resp.statusCode resp.body)⟩
          else
            ⟨1, pw, Except.error (ApiError.apiError resp.statusCode resp.body)⟩
        else
          ⟨1, pw, Except.ok resp.body⟩

/-- One call of `requestCtx`: the loop starts at `attempt = 0` with a nil
`lastErr` and may run `maxRetries + 1` iterations. -/
def requestCtx (server : Nat → AttemptResult) : RequestOutcome :=
  requestLoop server (maxRetries + 1) 0 none

/-- Recognizer for the "max retries exceeded" classification. -/
def isMaxRetriesExceeded : Except ApiError String → Bool
  | Except.error (ApiError.maxRetriesExceeded _) => true
  | _ => false

/-! ## Data model (internal/api/client.go) -/

/-- Due specification of a task, client.go lines 217-223. -/
structure Due where
  date : String := ""
  string : String := ""
  datetime : String := ""
  isRecurring : Bool := false
  timezone : String := ""
deriving DecidableEq

/-- A Todoist task, client.go lines 197-214.  Field defaults are the Go
zero values. -/
structure Task where
  id : String := ""
  content : String := ""
  description : String := ""
  projectID : String := ""
  sectionID : String := ""
  parentID : String := ""
  order : Int := 0
  priority : Int := 0
  due : Option Due := none
  url : String := ""
  labels : List String := []
  createdAt : String := ""
  creatorID : String := ""
  assignee : String := ""
  assigner : String := ""
  isCompleted : Bool := false
deriving DecidableEq

/-- A Todoist project, client.go lines 370-383. -/
structure Project where
  id : String := ""
  name : String := ""
  color : String := ""
  parentID : String := ""
  order : Int := 0
  commentCount : Int := 0
  isShared : Bool := false
  isFavorite : Bool := false
  isInboxProject : Bool := false
  isTeamInbox : Bool := false
  viewStyle : String := ""
  url : String := ""
deriving DecidableEq

/-- A project section, client.go lines 465-470. -/
structure Section where
  id : String := ""
  projectID : String := ""
  order : Int := 0
  name : String := ""
deriving DecidableEq

/-- A Todoist comment, client.go lines 565-571. -/
structure Comment where
  id : String := ""
  taskID : String := ""
  projectID : String := ""
  content : String := ""
  postedAt : String := ""
deriving DecidableEq

/-! ## Name resolution (client.go FindProject, sections.go findSectionID) -/

/-- Go `strings.Contains(s, sub)` on the character level: `sub` occurs
contiguously inside `s` (always true for the empty `sub`). -/
def subOccurs (sub : List Char) : List Char → Bool
  | [] => sub.isEmpty
  | c :: rest => sub.isPrefixOf (c :: rest) || subOccurs sub rest

/-- Go `strings.Contains(s, sub)`. -/
def strContains (s sub : String) : Bool :=
  subOccurs sub.data s.data

/-- Go `strings.ToLower` on the character level (characters are lowered
pointwise, covering the ASCII names this client compares). -/
def strToLower (s : String) : String :=
  ⟨s.data.map Char.toLower⟩

/-- The match test of the `FindProject` loop, client.go line 424. -/
def projectMatches (nameLower : String) (p : Project) : Bool :=
  strContains (strToLower p.name) nameLower

/-- `FindProject`, client.go lines 416-430, with the `GetProjects` fetch
abstracted to its decoded result list: scan the listing in order for the
first project whose lowercased name contains the lowercased query, else
fail with "project not found". -/
def FindProject (projects : List Project) (name : String) : Except String Project :=
  match projects.find? (projectMatches (strToLower name)) with
  | some p => Except.ok p
  | none => Except.error ("project not found: " ++ name)

/-- The match test of the `findSectionID` loop, sections.go line 297. -/
def sectionMatches (nameLower : String) (s : Section) : Bool :=
  strContains (strToLower s.name) nameLower

/-- `findSectionID`, cmd/todoist/sections.go lines 293-302: first section
whose lowercased name contains the lowercased query; the empty string
signals not-found. -/
def findSectionID (sections : List Section) (name : String) : String :=
  match sections.find? (sectionMatches (strToLower name)) with
  | some s => s.id
  | none => ""

/-! ## Priority conversion (cmd/todoist/add.go, cmd/todoist/update.go) -/

/-- Parameters for creating a task, client.go lines 269-280.  Defaults
are the Go zero values; the `priority` field carries the JSON tag
`priority,omitempty`, so a zero priority is omitted from the wire form. -/
structure AddTaskParams where
  content : String := ""
  description : String := ""
  dueString : String := ""
  dueDate : String := ""
  priority : Int := 0
  projectID : String := ""
  sectionID : String := ""
  parentID : String := ""
  labels : List String := []
  assigneeID : String := ""
deriving DecidableEq

/-- Parameters for updating a task, client.go lines 298-306 (again with
`priority,omitempty`). -/
structure UpdateTaskParams where
  content : String := ""
  description : String := ""
  dueString : String := ""
  dueDate : String := ""
  priority : Int := 0
  labels : List String := []
  assigneeID : String := ""
deriving DecidableEq

/-- The params literal built by the add command, add.go lines 43-48
(remaining fields are Go zero values). -/
def buildAddParams (content description due : String) (labels : List String) :
    AddTaskParams :=
  { content := content, description := description, dueString := due, labels := labels }

/-- The params literal built by the update command, update.go lines 41-45. -/
def buildUpdateParams (content description due : String) : UpdateTaskParams :=
  { content := content, description := description, dueString := due }

/-- The priority conversion block of add.go lines 50-53:
`if priority > 0 then params.Priority = 5 - priority`. -/
def addCmdConvertPriority (params : AddTaskParams) (priority : Int) : AddTaskParams :=
  if priority > 0 then { params with priority := 5 - priority } else params

/-- The priority conversion block of update.go lines 47-50. -/
def updateCmdConvertPriority (params : UpdateTaskParams) (priority : Int) :
    UpdateTaskParams :=
  if priority > 0 then { params with priority := 5 - priority } else params

/-- The wire presence of the `priority` field under `omitempty`: a zero
value is not serialized. -/
def AddTaskParams.priorityOnWire (params : AddTaskParams) : Option Int :=
  if params.priority = 0 then none else some params.priority

/-- Wire presence of `priority` for the update params under `omitempty`. -/
def UpdateTaskParams.priorityOnWire (params : UpdateTaskParams) : Option Int :=
  if params.priority = 0 then none else some params.priority

/-! ## List-response decoding (client.go unmarshalList) -/

/-- A JSON document (numbers restricted to integers, which covers every
payload this client handles). -/
inductive Json where
  | null
  | bool (b : Bool)
  | num (n : Int)
  | str (s : String)
  | arr (elems : List Json)
  | obj (fields : List (String × Json))

/-- The value of the last occurrence of `key` in an object's field list
(Go `encoding/json` lets a later duplicate key overwrite an earlier one). -/
def lookupLast (fields : List (String × Json)) (key : String) : Option Json :=
  ((fields.filter (fun f => f.1 == key)).getLast?).map (fun f => f.2)

/-- Go `json.Unmarshal(data, &page)` for `paginatedResponse` (client.go
lines 25-28): succeeds on a JSON object or null; on an object the
`results` field, being a `json.RawMessage`, captures any value while the
`next_cursor` field, a `*string`, must be a string or null when present.
Returns `some results?` on success (`none` inside when the field is
absent, i.e. the Go `page.Results == nil` test), `none` on a decode
error. -/
def unmarshalPaginated (j : Json) : Option (Option Json) :=
  match j with
  | Json.obj fields =>
    match lookupLast fields "next_cursor" with
    | some (Json.str _) => some (lookupLast fields "results")
    | some Json.null => some (lookupLast fields "results")
    | some _ => none
    | none => some (lookupLast fields "results")
  | Json.null => some none
  | _ => none

/-- `unmarshalList`, client.go lines 32-38, generic in the element
decoder `dec` (which stands for `json.Unmarshal` into the target slice):
first try the paginated envelope and decode its inner `results` value;
when that decode errors or yields no `results` field, fall back to
decoding the whole document directly. -/
def unmarshalList (dec : Json → Option α) (data : Json) : Option α :=
  match unmarshalPaginated data with
  | some (some results) => dec results
  | _ => dec data

/-! ## Concurrent comment enrichment (cmd/todoist tasks command, runTasks) -/

/-- Configuration of one enrichment fan-out (runTasks lines 112-138): the
parent task listing, and for each dispatch index the outcome its
`GetCommentsCtx` call produces when it runs against the server
un-cancelled (an error string or the decoded comments). -/
structure FanoutCfg where
  tasks : List Task
  fetch : Nat → Except String (List Comment)

/-- State of the fan-out: `nextIdx` is the position of the dispatch loop
over `tasks`; `active` holds the dispatch indices of running fetches
paired with whether the shared context was already cancelled when they
started; `canceled` is the state of the errgroup's shared context;
`firstErr` is the error retained by the errgroup (the first one
returned by a worker); `commentsMap` is the mutex-protected result
mapping from parent task ID to fetched comments. -/
structure FanoutState where
  nextIdx : Nat := 0
  active : List (Nat × Bool) := []
  canceled : Bool := false
  firstErr : Option String := none
  commentsMap : List (String × List Comment) := []
deriving DecidableEq

/-- The ID of the i-th parent task (the map key written by worker i). -/
def taskIdAt (cfg : FanoutCfg) (i : Nat) : String :=
  ((cfg.tasks.get? i).map Task.id).getD ""

/-- Scheduler events of the fan-out.  `start` dispatches the next task's
fetch (the `g.Go` call, which blocks until fewer than 5 fetches are in
flight); `finishNatural i` completes fetch `i` with its natural outcome
`cfg.fetch i`; `finishAborted i` completes fetch `i` with the context
cancellation error instead. -/
inductive FanEv where
  | start
  | finishNatural (i : Nat)
  | finishAborted (i : Nat)
deriving DecidableEq

/-- One scheduler step of the errgroup fan-out with concurrency cap 5
(`g.SetLimit(5)`).  A fetch started under a cancelled context never
reaches the server, so it cannot finish naturally; a fetch may abort
with the cancellation error only once the shared context is cancelled.
On a natural success the worker locks the mutex and appends to the
result mapping; on a natural failure the errgroup retains the error if
it is the first and cancels the shared context.  Invalid events yield
`none`. -/
def fanStep (cfg : FanoutCfg) (s : FanoutState) : FanEv → Option FanoutState
  | FanEv.start =>
    if s.nextIdx < cfg.tasks.length ∧ s.active.length < 5 then
      some { s with nextIdx := s.nextIdx + 1,
                    active := s.active ++ [(s.nextIdx, s.canceled)] }
    else none
  | FanEv.finishNatural i =>
    match s.active.find? (fun a => a.1 == i) with
    | some a =>
      if a.2 then none
      else
        match cfg.fetch i with
        | Except.ok comments =>
          some { s with active := s.active.filter (fun b => b.1 != i),
                        commentsMap := s.commentsMap ++ [(taskIdAt cfg i, comments)] }
        | Except.error e =>
          if s.firstErr.isSome then
            some { s with active := s.active.filter (fun b => b.1 != i) }
          else
            some { s with active := s.active.filter (fun b => b.1 != i),
                          firstErr := some e, canceled := true }
    | none => none
  | FanEv.finishAborted i =>
    match s.active.find? (fun a => a.1 == i) with
    | some _ =>
      if s.canceled then
        some { s with active := s.active.filter (fun b => b.1 != i) }
      else none
    | none => none

/-- Run a sequence of scheduler events from a state. -/
def fanRun (cfg : FanoutCfg) : FanoutState → List FanEv → Option FanoutState
  | s, [] => some s
  | s, ev :: rest =>
    match fanStep cfg s ev with
    | some s2 => fanRun cfg s2 rest
    | none => none

/-- The initial fan-out state (before the dispatch loop). -/
def fanInit : FanoutState := {}

/-- Structural sanity of a fan-out state: active dispatch indices are
pairwise distinct and below the dispatch position. -/
def fanActiveOk (s : FanoutState) : Prop :=
  (s.active.map Prod.fst).Nodup ∧ ∀ a ∈ s.active, a.1 < s.nextIdx

/-- A complete execution: every event valid, all tasks dispatched and all
workers joined (the point where `g.Wait()` returns). -/
def fanComplete (cfg : FanoutCfg) (events : List FanEv) : Bool :=
  match fanRun cfg fanInit events with
  | some s => s.nextIdx == cfg.tasks.length && s.active.isEmpty
  | none => false

/-- What the caller of the enrichment observes (runTasks lines 136-160):
on `g.Wait()` returning an error, runTasks returns that error and the
result mapping is discarded unread; otherwise the fully joined mapping
is consumed for display. -/
inductive DetailsOutcome where
  | failure (e : String)
  | success (commentsMap : List (String × List Comment))
deriving DecidableEq

/-- The observable result of the enrichment for a complete schedule. -/
def runTasksDetails (cfg : FanoutCfg) (events : List FanEv) : Option DetailsOutcome :=
  match fanRun cfg fanInit events with
  | some s =>
    if s.nextIdx == cfg.tasks.length && s.active.isEmpty then
      some (match s.firstErr with
            | some e => DetailsOutcome.failure e
            | none => DetailsOutcome.success s.commentsMap)
    else none
  | none => none

/-- The error of the first fetch in a schedule that completes naturally
with a failure (the first error a worker hands to the errgroup). -/
def firstNatFail (cfg : FanoutCfg) : List FanEv → Option String
  | [] => none
  | FanEv.finishNatural i :: rest =>
    match cfg.fetch i with
    | Except.error e => some e
    | Except.ok _ => firstNatFail cfg rest
  | FanEv.start :: rest => firstNatFail cfg rest
  | FanEv.finishAborted _ :: rest => firstNatFail cfg rest

/-! ## Transport lemmas -/

/-- Unfolding lemma: an iteration whose attempt yields a success-range
response returns the body, performing only the pre-wait. -/
theorem requestLoop_response_ok (server : Nat → AttemptResult) (rem attempt : Nat)
    (lastErr : Option GoErr) (resp : HttpResponse)
    (hsrv : server attempt = AttemptResult.response resp)
    (hok : resp.statusCode < 400) :
    requestLoop server (rem + 1) attempt lastErr =
      ⟨1, preWaits attempt lastErr, Except.ok resp.body⟩ := by
  have hne : ¬(resp.statusCode = 429 ∧ attempt < maxRetries) := by
    rintro ⟨h, -⟩; omega
  have hge : ¬(resp.statusCode ≥ 400) := by omega
  simp only [requestLoop, hsrv, if_neg hne, if_neg hge]

/-- Unfolding lemma: an iteration whose attempt yields a 429 with
attempts remaining records the rate-limit wait and retries. -/
theorem requestLoop_response_429 (server : Nat → AttemptResult) (rem attempt : Nat)
    (lastErr : Option GoErr) (resp : HttpResponse)
    (hsrv : server attempt = AttemptResult.response resp)
    (h429 : resp.statusCode = 429) (hlt : attempt < maxRetries) :
    requestLoop server (rem + 1) attempt lastErr =
      ⟨1 + (requestLoop server rem (attempt + 1)
              (some (GoErr.retryAfterError (retryWaitSeconds resp.retryAfter)))).attempts,
       preWaits attempt lastErr ++
         (requestLoop server rem (attempt + 1)
            (some (GoErr.retryAfterError (retryWaitSeconds resp.retryAfter)))).waits,
       (requestLoop server rem (attempt + 1)
          (some (GoErr.retryAfterError (retryWaitSeconds resp.retryAfter)))).result⟩ := by
  simp only [requestLoop, hsrv, if_pos (And.intro h429 hlt)]

/-- Unfolding lemma: an iteration whose attempt yields a terminal error
status classifies it as an auth failure on 401/403 and as a generic API
failure otherwise. -/
theorem requestLoop_response_err (server : Nat → AttemptResult) (rem attempt : Nat)
    (lastErr : Option GoErr) (resp : HttpResponse)
    (hsrv : server attempt = AttemptResult.response resp)
    (hge : resp.statusCode ≥ 400)
    (hne : ¬(resp.statusCode = 429 ∧ attempt < maxRetries)) :
    requestLoop server (rem + 1) attempt lastErr =
      ⟨1, preWaits attempt lastErr,
       if resp.statusCode = 401 ∨ resp.statusCode = 403 then
         Except.error (ApiError.authError resp.statusCode resp.body)
       else
         Except.error (ApiError.apiError resp.statusCode resp.body)⟩ := by
  simp only [requestLoop, hsrv, if_neg hne, if_pos hge]
  split <;> rfl

/-- Unfolding lemma: a failed `httpClient.Do` returns at once. -/
theorem requestLoop_doError (server : Nat → AttemptResult) (rem attempt : Nat)
    (lastErr : Option GoErr) (hsrv : server attempt = AttemptResult.doError) :
    requestLoop server (rem + 1) attempt lastErr =
      ⟨1, preWaits attempt lastErr,
       Except.error (ApiError.networkError "request failed")⟩ := by
  simp only [requestLoop, hsrv]

/-- Unfolding lemma: a failed body read returns at once. -/
theorem requestLoop_readError (server : Nat → AttemptResult) (rem attempt : Nat)
    (lastErr : Option GoErr) (hsrv : server attempt = AttemptResult.readError) :
    requestLoop server (rem + 1) attempt lastErr =
      ⟨1, preWaits attempt lastErr,
       Except.error (ApiError.networkError "failed to read response")⟩ := by
  simp only [requestLoop, hsrv]

/-- The final "max retries exceeded" return of client.go line 181 is dead
code: the loop can only run out of iterations through the 429-retry
`continue`, which its own guard `attempt < maxRetries` forbids on the
last iteration. -/
theorem requestLoop_never_maxRetriesExceeded (server : Nat → AttemptResult) :
    ∀ (rem attempt : Nat) (lastErr : Option GoErr),
      rem + attempt = maxRetries + 1 → 1 ≤ rem →
      isMaxRetriesExceeded (requestLoop server rem attempt lastErr).result = false := by
  intro rem
  induction rem with
  | zero => intro attempt lastErr _ h1; omega
  | succ rem ih =>
    intro attempt lastErr hsum _
    match hsrv : server attempt with
    | AttemptResult.doError =>
      rw [requestLoop_doError server rem attempt lastErr hsrv]; rfl
    | AttemptResult.readError =>
      rw [requestLoop_readError server rem attempt lastErr hsrv]; rfl
    | AttemptResult.response resp =>
      by_cases h429 : resp.statusCode = 429 ∧ attempt < maxRetries
      · rw [requestLoop_response_429 server rem attempt lastErr resp hsrv h429.1 h429.2]
        exact ih (attempt + 1) _ (by omega) (by have := h429.2; simp [maxRetries] at this ⊢; omega)
      · by_cases hge : resp.statusCode ≥ 400
        · rw [requestLoop_response_err server rem attempt lastErr resp hsrv hge h429]
          split <;> rfl
        · rw [requestLoop_response_ok server rem attempt lastErr resp hsrv (by omega)]
          rfl

/-- A run of 429 responses followed by a success: the loop performs one
rate-limit wait per 429 and ends with the success body.  Stated for an
arbitrary loop entry point `attempt` so it can be proved by induction on
the number `k` of leading 429s. -/
theorem requestLoop_429s_then_ok (resp : Nat → HttpResponse) :
    ∀ (k attempt : Nat) (lastErr : Option GoErr),
      attempt + k ≤ maxRetries →
      (∀ i, attempt ≤ i → i < attempt + k → (resp i).statusCode = 429) →
      (resp (attempt + k)).statusCode ≠ 429 →
      (resp (attempt + k)).statusCode < 400 →
      requestLoop (fun i => AttemptResult.response (resp i))
          (maxRetries + 1 - attempt) attempt lastErr =
        ⟨k + 1,
         preWaits attempt lastErr ++
           (List.range k).map
             (fun j => ⟨WaitKind.rateLimit,
                        retryWaitSeconds (resp (attempt + j)).retryAfter⟩),
         Except.ok (resp (attempt + k)).body⟩ := by
  intro k
  induction k with
  | zero =>
    intro attempt lastErr hle _ _ hok
    obtain ⟨rem, hrem⟩ : ∃ rem, maxRetries + 1 - attempt = rem + 1 :=
      ⟨maxRetries - attempt, by omega⟩
    rw [hrem]
    rw [requestLoop_response_ok _ rem attempt lastErr (resp attempt) rfl
      (by simpa using hok)]
    simp
  | succ k ih =>
    intro attempt lastErr hle h429 hne hok
    obtain ⟨rem, hrem⟩ : ∃ rem, maxRetries + 1 - attempt = rem + 1 :=
      ⟨maxRetries - attempt, by omega⟩
    rw [hrem]
    rw [requestLoop_response_429 _ rem attempt lastErr (resp attempt) rfl
      (h429 attempt (Nat.le_refl attempt) (by omega)) (by omega)]
    have hrem2 : rem = maxRetries + 1 - (attempt + 1) := by omega
    rw [hrem2]
    rw [ih (attempt + 1)
      (some (GoErr.retryAfterError (retryWaitSeconds (resp attempt).retryAfter)))
      (by omega) (fun i h1 h2 => h429 i (by omega) (by omega))
      (by have h := hne; simpa [Nat.add_assoc, Nat.add_comm 1 k] using h)
      (by have h := hok; simpa [Nat.add_assoc, Nat.add_comm 1 k] using h)]
    simp only [RequestOutcome.mk.injEq]
    refine ⟨by omega, ?_, ?_⟩
    · simp only [preWaits, Nat.add_pos_left, List.range_succ_eq_map, List.map_cons,
        List.map_map, Function.comp]
      simp [Nat.add_assoc, Nat.add_comm 1 _, List.append_assoc]
    · simp [Nat.add_assoc, Nat.add_comm 1 k]

/-- Loop invariant behind C9: `lastErr` is only ever written by the 429
branch, so every recorded wait stems from a 429 response's rate-limit
hint. -/
theorem requestLoop_waits_rate_limited (server : Nat → AttemptResult) :
    ∀ (rem attempt : Nat) (lastErr : Option GoErr),
      (lastErr = none ∨ ∃ i respI, server i = AttemptResult.response respI ∧
          respI.statusCode = 429 ∧
          lastErr = some (GoErr.retryAfterError (retryWaitSeconds respI.retryAfter))) →
      ∀ w ∈ (requestLoop server rem attempt lastErr).waits,
        w.kind = WaitKind.rateLimit ∧
        ∃ i respI, server i = AttemptResult.response respI ∧
          respI.statusCode = 429 ∧ w.seconds = retryWaitSeconds respI.retryAfter := by
  have hpre : ∀ (attempt : Nat) (lastErr : Option GoErr),
      (lastErr = none ∨ ∃ i respI, server i = AttemptResult.response respI ∧
          respI.statusCode = 429 ∧
          lastErr = some (GoErr.retryAfterError (retryWaitSeconds respI.retryAfter))) →
      ∀ w ∈ preWaits attempt lastErr,
        w.kind = WaitKind.rateLimit ∧
        ∃ i respI, server i = AttemptResult.response respI ∧
          respI.statusCode = 429 ∧ w.seconds = retryWaitSeconds respI.retryAfter := by
    intro attempt lastErr hinv w hw
    rcases hinv with hinv | ⟨i, respI, hsrv, h429, hinv⟩
    · subst hinv
      simp [preWaits] at hw
    · subst hinv
      simp only [preWaits] at hw
      by_cases hatt : attempt > 0
      · rw [if_pos hatt] at hw
        simp at hw
        subst hw
        exact ⟨rfl, i, respI, hsrv, h429, rfl⟩
      · rw [if_neg hatt] at hw
        exact absurd hw (List.not_mem_nil w)
  intro rem
  induction rem with
  | zero =>
    intro attempt lastErr _ w hw
    simp [requestLoop] at hw
  | succ rem ih =>
    intro attempt lastErr hinv w hw
    match hsrv : server attempt with
    | AttemptResult.doError =>
      rw [requestLoop_doError server rem attempt lastErr hsrv] at hw
      exact hpre attempt lastErr hinv w hw
    | AttemptResult.readError =>
      rw [requestLoop_readError server rem attempt lastErr hsrv] at hw
      exact hpre attempt lastErr hinv w hw
    | AttemptResult.response resp =>
      by_cases h429 : resp.statusCode = 429 ∧ attempt < maxRetries
      · rw [requestLoop_response_429 server rem attempt lastErr resp hsrv h429.1 h429.2] at hw
        simp only [List.mem_append] at hw
        rcases hw with hw | hw
        · exact hpre attempt lastErr hinv w hw
        · exact ih (attempt + 1) _ (Or.inr ⟨attempt, resp, hsrv, h429.1, rfl⟩) w hw
      · by_cases hge : resp.statusCode ≥ 400
        · rw [requestLoop_response_err server rem attempt lastErr resp hsrv hge h429] at hw
          exact hpre attempt lastErr hinv w hw
        · rw [requestLoop_response_ok server rem attempt lastErr resp hsrv (by omega)] at hw
          exact hpre attempt lastErr hinv w hw

/-! ## Claim theorems: transport -/

/-- C1 (code bug evaluation): against a server that answers 429 to every
attempt, `requestCtx` makes exactly 4 HTTP attempts (1 initial +
maxRetries = 3 extra) with a rate-limit wait before each retry, but the
failure it returns is the generic classification "API error (429)" from
the `>= 400` branch, not a "retries exceeded" classification: the
`max retries exceeded` return of client.go line 181 is unreachable for
every server behavior. -/
theorem requestCtx_all_429_four_attempts_generic_error :
    requestCtx (fun _ => AttemptResult.response ⟨429, "", "rate limited"⟩) =
      ⟨4, [⟨WaitKind.rateLimit, 5⟩, ⟨WaitKind.rateLimit, 5⟩, ⟨WaitKind.rateLimit, 5⟩],
       Except.error (ApiError.apiError 429 "rate limited")⟩
    ∧ ∀ server : Nat → AttemptResult,
        isMaxRetriesExceeded (requestCtx server).result = false :=
  ⟨rfl, fun server =>
    requestLoop_never_maxRetriesExceeded server (maxRetries + 1) 0 none
      (by omega) (by omega)⟩

/-- C2: when the server answers 429 to the first `k ≤ 3` attempts and a
2xx afterwards, `requestCtx` succeeds after exactly `k + 1` attempts
with the 2xx body, sleeping before each retry for the corresponding 429
response's parsed `Retry-After` seconds (`retryWaitSeconds`, which falls
back to 5 seconds when the header is absent or unparseable). -/
theorem requestCtx_rate_limited_then_success (resp : Nat → HttpResponse) (k : Nat)
    (hk : k ≤ 3)
    (h429 : ∀ i, i < k → (resp i).statusCode = 429)
    (hlo : 200 ≤ (resp k).statusCode) (hhi : (resp k).statusCode < 300) :
    requestCtx (fun i => AttemptResult.response (resp i)) =
      ⟨k + 1,
       (List.range k).map
         (fun j => ⟨WaitKind.rateLimit, retryWaitSeconds (resp j).retryAfter⟩),
       Except.ok (resp k).body⟩ := by
  have h := requestLoop_429s_then_ok resp k 0 none (by simp [maxRetries]; omega)
    (fun i _ h2 => h429 i (by omega)) (by simp; omega) (by simpa using hhi.trans_le (by omega))
  simp only [Nat.zero_add] at h
  simpa [requestCtx, preWaits] using h

/-- C2 witness: two 429s carrying `Retry-After: 7` then a 200 give
success after 3 attempts with two 7-second rate-limit waits. -/
theorem requestCtx_rate_limited_then_success_witness :
    requestCtx (fun i => AttemptResult.response
        (if i < 2 then ⟨429, "7", "rl"⟩ else ⟨200, "", "okbody"⟩)) =
      ⟨3, [⟨WaitKind.rateLimit, 7⟩, ⟨WaitKind.rateLimit, 7⟩], Except.ok "okbody"⟩ := by
  have h := requestCtx_rate_limited_then_success
    (fun i => if i < 2 then ⟨429, "7", "rl"⟩ else ⟨200, "", "okbody"⟩) 2
    (by omega) (fun i hi => by simp [hi]) (by decide) (by decide)
  simpa [List.range_succ] using h

/-- C7: classification of a terminal (non-retried) first response: any
status below 400 (2xx included) returns the body with no error, 401 and
403 produce the authentication failure, and every other status at or
above 400 produces the generic API failure carrying status and body. -/
theorem requestCtx_terminal_status_classification (server : Nat → AttemptResult)
    (resp : HttpResponse) (hsrv : server 0 = AttemptResult.response resp)
    (hne : resp.statusCode ≠ 429) :
    requestCtx server =
      ⟨1, [],
       if resp.statusCode < 400 then Except.ok resp.body
       else if resp.statusCode = 401 ∨ resp.statusCode = 403 then
         Except.error (ApiError.authError resp.statusCode resp.body)
       else Except.error (ApiError.apiError resp.statusCode resp.body)⟩ := by
  by_cases hok : resp.statusCode < 400
  · have h := requestLoop_response_ok server maxRetries 0 none resp hsrv hok
    simpa [requestCtx, preWaits, hok] using h
  · have h := requestLoop_response_err server maxRetries 0 none resp hsrv (by omega)
      (by rintro ⟨h1, -⟩; exact hne h1)
    simpa [requestCtx, preWaits, hok] using h

/-- C7 witness: a first-response 403 is classified as an authentication
failure after a single attempt. -/
theorem requestCtx_terminal_status_classification_witness :
    requestCtx (fun _ => AttemptResult.response ⟨403, "", "forbidden"⟩) =
      ⟨1, [], Except.error (ApiError.authError 403 "forbidden")⟩ := by
  have h := requestCtx_terminal_status_classification
    (fun _ => AttemptResult.response ⟨403, "", "forbidden"⟩) ⟨403, "", "forbidden"⟩
    rfl (by decide)
  simpa using h

/-- C8: a network-level failure of the attempt (the `Do` call failing or
the body read failing) is returned immediately as a network failure,
after exactly one attempt and with no backoff wait. -/
theorem requestCtx_network_error_not_retried (server : Nat → AttemptResult)
    (h : server 0 = AttemptResult.doError ∨ server 0 = AttemptResult.readError) :
    (requestCtx server).attempts = 1 ∧ (requestCtx server).waits = [] ∧
      ((requestCtx server).result =
          Except.error (ApiError.networkError "request failed") ∨
       (requestCtx server).result =
          Except.error (ApiError.networkError "failed to read response")) := by
  rcases h with h | h
  · have e : requestCtx server =
        ⟨1, preWaits 0 none, Except.error (ApiError.networkError "request failed")⟩ :=
      requestLoop_doError server maxRetries 0 none h
    rw [e]; exact ⟨rfl, rfl, Or.inl rfl⟩
  · have e : requestCtx server =
        ⟨1, preWaits 0 none,
         Except.error (ApiError.networkError "failed to read response")⟩ :=
      requestLoop_readError server maxRetries 0 none h
    rw [e]; exact ⟨rfl, rfl, Or.inr rfl⟩

/-- C8 witness: a failing `Do` call on the first attempt. -/
theorem requestCtx_network_error_not_retried_witness :
    (requestCtx (fun _ => AttemptResult.doError)).attempts = 1 ∧
    (requestCtx (fun _ => AttemptResult.doError)).waits = [] ∧
      ((requestCtx (fun _ => AttemptResult.doError)).result =
          Except.error (ApiError.networkError "request failed") ∨
       (requestCtx (fun _ => AttemptResult.doError)).result =
          Except.error (ApiError.networkError "failed to read response")) :=
  requestCtx_network_error_not_retried (fun _ => AttemptResult.doError) (Or.inl rfl)

/-- C9: every inter-attempt wait `requestCtx` ever performs comes from
the 429 branch: it is a rate-limit wait whose length is the parsed
`Retry-After` (or 5-second fallback) of some 429 response, so the
exponential-backoff branch of client.go lines 107-114 is unreachable. -/
theorem requestCtx_waits_always_rate_limit (server : Nat → AttemptResult) :
    ∀ w ∈ (requestCtx server).waits,
      w.kind = WaitKind.rateLimit ∧
      ∃ i respI, server i = AttemptResult.response respI ∧
        respI.statusCode = 429 ∧ w.seconds = retryWaitSeconds respI.retryAfter :=
  requestLoop_waits_rate_limited server (maxRetries + 1) 0 none (Or.inl rfl)

/-- C9 witness: the single wait of a 429-then-200 run is the rate-limit
wait parsed from the 429's `Retry-After: 7`. -/
theorem requestCtx_waits_always_rate_limit_witness :
    (⟨WaitKind.rateLimit, 7⟩ : Wait).kind = WaitKind.rateLimit ∧
    ∃ i respI,
      (fun j => if j = 0 then AttemptResult.response ⟨429, "7", "rl"⟩
                else AttemptResult.response ⟨200, "", "ok"⟩) i =
          AttemptResult.response respI ∧
      respI.statusCode = 429 ∧
      (⟨WaitKind.rateLimit, 7⟩ : Wait).seconds = retryWaitSeconds respI.retryAfter :=
  requestCtx_waits_always_rate_limit
    (fun j => if j = 0 then AttemptResult.response ⟨429, "7", "rl"⟩
              else AttemptResult.response ⟨200, "", "ok"⟩)
    ⟨WaitKind.rateLimit, 7⟩ (by decide)

/-! ## Claim theorems: name resolution -/

/-- The empty needle occurs in every haystack, as for Go
`strings.Contains(s, "")`. -/
theorem subOccurs_nil (cs : List Char) : subOccurs [] cs = true := by
  cases cs <;> simp [subOccurs, List.isPrefixOf]

/-- C4: name resolution scans the listing in order: a resolved project is
a matching element all of whose predecessors fail the match, the
"project not found" failure occurs exactly when no element matches, and
`findSectionID` behaves the same way over sections with the empty string
as its not-found signal.  Multiple matches are silently resolved to the
first: nothing in the contract inspects later elements. -/
theorem name_resolution_first_match (projects : List Project)
    (sections : List Section) (q : String) :
    (∀ p, FindProject projects q = Except.ok p →
       projectMatches (strToLower q) p = true ∧
       ∃ i, ∃ h : i < projects.length, projects.get ⟨i, h⟩ = p ∧
         ∀ j (hj : j < i),
           projectMatches (strToLower q) (projects.get ⟨j, Nat.lt_trans hj h⟩) = false)
    ∧ (FindProject projects q = Except.error ("project not found: " ++ q) ↔
        ∀ p ∈ projects, projectMatches (strToLower q) p = false)
    ∧ (∀ s, sections.find? (sectionMatches (strToLower q)) = some s →
       findSectionID sections q = s.id ∧ sectionMatches (strToLower q) s = true ∧
       ∃ i, ∃ h : i < sections.length, sections.get ⟨i, h⟩ = s ∧
         ∀ j (hj : j < i),
           sectionMatches (strToLower q) (sections.get ⟨j, Nat.lt_trans hj h⟩) = false)
    ∧ ((∀ s ∈ sections, sectionMatches (strToLower q) s = false) →
        findSectionID sections q = "") := by
  refine ⟨?_, ⟨?_, ?_⟩, ?_, ?_⟩
  · intro p hp
    have hf : projects.find? (projectMatches (strToLower q)) = some p := by
      unfold FindProject at hp
      cases hfind : projects.find? (projectMatches (strToLower q)) with
      | some p2 =>
        rw [hfind] at hp
        cases hp
        rfl
      | none => rw [hfind] at hp; exact absurd hp (by simp)
    rw [List.find?_eq_some_iff_getElem] at hf
    obtain ⟨hmatch, i, h, hget, hprev⟩ := hf
    refine ⟨hmatch, i, h, by simpa [List.get_eq_getElem] using hget, fun j hj => ?_⟩
    have := hprev j hj
    simpa [List.get_eq_getElem] using this
  · intro herr p hp
    unfold FindProject at herr
    cases hfind : projects.find? (projectMatches (strToLower q)) with
    | some p2 => rw [hfind] at herr; exact absurd herr (by simp)
    | none =>
      rw [List.find?_eq_none] at hfind
      simpa using hfind p hp
  · intro hall
    unfold FindProject
    rw [List.find?_eq_none.mpr (fun x hx => by simp [hall x hx])]
  · intro s hs
    have hf := hs
    rw [List.find?_eq_some_iff_getElem] at hf
    obtain ⟨hmatch, i, h, hget, hprev⟩ := hf
    refine ⟨by unfold findSectionID; rw [hs], hmatch, i, h,
      by simpa [List.get_eq_getElem] using hget, fun j hj => ?_⟩
    have := hprev j hj
    simpa [List.get_eq_getElem] using this
  · intro hall
    unfold findSectionID
    rw [List.find?_eq_none.mpr (fun x hx => by simp [hall x hx])]

/-- C4 witness: the resolution examples from the spec — "Work" at index 0
wins over "Work Projects" at index 2, a matching section resolves to its
ID, and a query matching nothing yields the not-found failure. -/
theorem name_resolution_first_match_witness :
    FindProject [{ id := "1", name := "Work" }, { id := "2", name := "Shopping" },
        { id := "3", name := "Work Projects" }] "work" =
      Except.ok { id := "1", name := "Work" } ∧
    findSectionID [{ id := "s1", projectID := "p", name := "Doing" }] "doing" = "s1" ∧
    FindProject [{ id := "1", name := "Work" }] "zzz" =
      Except.error ("project not found: " ++ "zzz") :=
  ⟨rfl, rfl,
   (name_resolution_first_match [{ id := "1", name := "Work" }] [] "zzz").2.1.mpr
     (by decide)⟩

/-- C10: with the empty string as the query, every project name matches
(the empty substring occurs in every string), so `FindProject` on a
non-empty listing returns the first project and never the not-found
failure. -/
theorem FindProject_empty_query (projects : List Project) (h : projects ≠ []) :
    FindProject projects "" = Except.ok (projects.head h) := by
  cases projects with
  | nil => exact absurd rfl h
  | cons p rest =>
    unfold FindProject
    rw [List.find?_cons_of_pos]
    · rfl
    · show projectMatches (strToLower "") p = true
      show subOccurs (strToLower "").data (strToLower p.name).data = true
      exact subOccurs_nil _

/-- C10 witness: the empty query on a concrete two-project listing
returns the first project. -/
theorem FindProject_empty_query_witness :
    FindProject [{ id := "1", name := "Work" }, { id := "2", name := "Home" }] "" =
      Except.ok { id := "1", name := "Work" } :=
  FindProject_empty_query
    [{ id := "1", name := "Work" }, { id := "2", name := "Home" }] (by simp)

/-! ## Claim theorems: priority conversion -/

/-- C5: the add and update commands map a user priority p in 1..4 to the
API value 5 - p; that map is a bijection of the set 1,2,3,4 onto 4,3,2,1
and is its own inverse; and with priority 0 (flag unset) no conversion
happens and the built params carry no priority on the wire (the zero
value is dropped by omitempty). -/
theorem priority_conversion_bijection (a : AddTaskParams) (u : UpdateTaskParams)
    (content description due : String) (labels : List String)
    (p : Int) (hp1 : 1 ≤ p) (hp4 : p ≤ 4) :
    ((addCmdConvertPriority a p).priority = 5 - p ∧
     (updateCmdConvertPriority u p).priority = 5 - p) ∧
    Set.BijOn (fun q : Int => 5 - q)
      ({1, 2, 3, 4} : Set Int) ({4, 3, 2, 1} : Set Int) ∧
    (5 - (5 - p) = p ∧ 1 ≤ 5 - p ∧ 5 - p ≤ 4) ∧
    ((addCmdConvertPriority (buildAddParams content description due labels) 0).priorityOnWire
        = none ∧
     (updateCmdConvertPriority (buildUpdateParams content description due) 0).priorityOnWire
        = none) := by
  refine ⟨⟨?_, ?_⟩, ⟨?_, ?_, ?_⟩, ⟨by omega, by omega, by omega⟩, ⟨?_, ?_⟩⟩
  · rw [addCmdConvertPriority, if_pos (by omega : p > 0)]
  · rw [updateCmdConvertPriority, if_pos (by omega : p > 0)]
  · intro x hx
    simp only [Set.mem_insert_iff, Set.mem_singleton_iff] at hx ⊢
    omega
  · intro x hx y hy hxy
    simp only at hxy
    omega
  · intro y hy
    simp only [Set.mem_insert_iff, Set.mem_singleton_iff] at hy
    refine ⟨5 - y, ?_, by show (5 : Int) - (5 - y) = y; omega⟩
    simp only [Set.mem_insert_iff, Set.mem_singleton_iff]
    omega
  · simp [buildAddParams, addCmdConvertPriority, AddTaskParams.priorityOnWire]
  · simp [buildUpdateParams, updateCmdConvertPriority, UpdateTaskParams.priorityOnWire]

/-- C5 witness: the conversion at user priority 1 (highest) on zero-value
params. -/
theorem priority_conversion_bijection_witness :
    ((addCmdConvertPriority {} 1).priority = 5 - 1 ∧
     (updateCmdConvertPriority {} 1).priority = 5 - 1) ∧
    Set.BijOn (fun q : Int => 5 - q)
      ({1, 2, 3, 4} : Set Int) ({4, 3, 2, 1} : Set Int) ∧
    (5 - (5 - 1) = (1 : Int) ∧ 1 ≤ 5 - (1 : Int) ∧ 5 - (1 : Int) ≤ 4) ∧
    ((addCmdConvertPriority (buildAddParams "" "" "" []) 0).priorityOnWire = none ∧
     (updateCmdConvertPriority (buildUpdateParams "" "" "") 0).priorityOnWire = none) :=
  priority_conversion_bijection {} {} "" "" "" [] 1 (by norm_num) (by norm_num)

/-! ## Claim theorems: list-response decoding -/

/-- C6: decoding tries the paginated envelope first and falls back to the
bare array: an envelope with a `results` array and a null-or-string
cursor decodes exactly the inner array, a bare array decodes directly,
and the two forms give identical typed output for the same element
data. -/
theorem unmarshalList_envelope_and_bare {α : Type} (dec : Json → Option α)
    (elems : List Json) (cursor : Json)
    (hc : cursor = Json.null ∨ ∃ s, cursor = Json.str s) :
    unmarshalList dec (Json.obj [("results", Json.arr elems), ("next_cursor", cursor)]) =
        dec (Json.arr elems) ∧
    unmarshalList dec (Json.arr elems) = dec (Json.arr elems) ∧
    unmarshalList dec (Json.obj [("results", Json.arr elems), ("next_cursor", cursor)]) =
        unmarshalList dec (Json.arr elems) := by
  rcases hc with rfl | ⟨s, rfl⟩ <;> exact ⟨rfl, rfl, rfl⟩

/-- C6 witness: a concrete envelope with a null cursor and the identity
decoder. -/
theorem unmarshalList_envelope_and_bare_witness :
    unmarshalList some
        (Json.obj [("results", Json.arr [Json.num 1]), ("next_cursor", Json.null)]) =
      some (Json.arr [Json.num 1]) ∧
    unmarshalList some (Json.arr [Json.num 1]) = some (Json.arr [Json.num 1]) ∧
    unmarshalList some
        (Json.obj [("results", Json.arr [Json.num 1]), ("next_cursor", Json.null)]) =
      unmarshalList some (Json.arr [Json.num 1]) :=
  unmarshalList_envelope_and_bare some [Json.num 1] Json.null (Or.inl rfl)

/-! ## Fan-out lemmas -/

/-- The errgroup error/cancellation bookkeeping along a run: starting
from a state whose context is cancelled exactly when an error is
recorded, the final recorded error is the already recorded one, or else
the error of the first fetch that finishes naturally with a failure; and
the final context is cancelled exactly when an error is recorded. -/
theorem fanRun_firstErr (cfg : FanoutCfg) :
    ∀ (events : List FanEv) (s s2 : FanoutState),
      s.canceled = s.firstErr.isSome →
      fanRun cfg s events = some s2 →
      s2.firstErr = (match s.firstErr with
                     | some e0 => some e0
                     | none => firstNatFail cfg events) ∧
      s2.canceled = s2.firstErr.isSome := by
  intro events
  induction events with
  | nil =>
    intro s s2 hinv hrun
    simp only [fanRun] at hrun
    cases hrun
    exact ⟨by cases s.firstErr <;> rfl, hinv⟩
  | cons ev rest ih =>
    intro s s2 hinv hrun
    simp only [fanRun] at hrun
    cases hstep : fanStep cfg s ev with
    | none => rw [hstep] at hrun; exact absurd hrun (by simp)
    | some s3 =>
      rw [hstep] at hrun
      have hrun2 : fanRun cfg s3 rest = some s2 := hrun
      clear hrun
      cases ev with
      | start =>
        simp only [fanStep] at hstep
        split at hstep
        · cases hstep
          have h3 := ih _ s2 (by exact hinv) hrun2
          simpa [firstNatFail] using h3
        · exact absurd hstep (by simp)
      | finishNatural i =>
        simp only [fanStep] at hstep
        split at hstep
        · split at hstep
          · exact absurd hstep (by simp)
          · cases hfetch : cfg.fetch i with
            | ok comments =>
              rw [hfetch] at hstep
              cases hstep
              have h3 := ih _ s2 (by exact hinv) hrun2
              simpa [firstNatFail, hfetch] using h3
            | error e2 =>
              rw [hfetch] at hstep
              cases hfe : s.firstErr with
              | some e0 =>
                rw [hfe] at hstep
                simp only [Option.isSome_some, if_pos] at hstep
                cases hstep
                have h3 := ih _ s2 (by simpa [hfe] using hinv) hrun2
                simp only [hfe] at h3
                simpa [firstNatFail, hfetch, hfe] using h3
              | none =>
                rw [hfe] at hstep
                simp only [Option.isSome_none, Bool.false_eq_true, if_neg] at hstep
                cases hstep
                have h3 := ih _ s2 (by simp) hrun2
                simp only [] at h3
                simpa [firstNatFail, hfetch, hfe] using h3
        · exact absurd hstep (by simp)
      | finishAborted i =>
        simp only [fanStep] at hstep
        split at hstep
        · split at hstep
          · cases hstep
            have h3 := ih _ s2 (by exact hinv) hrun2
            simpa [firstNatFail] using h3
          · exact absurd hstep (by simp)
        · exact absurd hstep (by simp)

/-- A state obtained by removing one active fetch keeps distinct,
in-bounds active indices. -/
theorem fanActiveOk_of_filter (s s2 : FanoutState) (i : Nat)
    (hok : fanActiveOk s)
    (ha : s2.active = s.active.filter (fun b => b.1 != i))
    (hn : s2.nextIdx = s.nextIdx) : fanActiveOk s2 := by
  rcases hok with ⟨hnd, hbd⟩
  refine ⟨?_, ?_⟩
  · rw [ha]
    exact List.Nodup.sublist ((s.active.filter_sublist).map Prod.fst) hnd
  · intro a ha2
    rw [ha] at ha2
    rw [hn]
    exact hbd a (List.mem_of_mem_filter ha2)

/-- Every reachable fan-out state has distinct, in-bounds active
indices. -/
theorem fanRun_activeOk (cfg : FanoutCfg) :
    ∀ (events : List FanEv) (s s2 : FanoutState),
      fanActiveOk s → fanRun cfg s events = some s2 → fanActiveOk s2 := by
  intro events
  induction events with
  | nil =>
    intro s s2 hok hrun
    simp only [fanRun] at hrun
    cases hrun
    exact hok
  | cons ev rest ih =>
    intro s s2 hok hrun
    simp only [fanRun] at hrun
    cases hstep : fanStep cfg s ev with
    | none => rw [hstep] at hrun; exact absurd hrun (by simp)
    | some s3 =>
      rw [hstep] at hrun
      have hrun2 : fanRun cfg s3 rest = some s2 := hrun
      clear hrun
      refine ih s3 s2 ?_ hrun2
      cases ev with
      | start =>
        simp only [fanStep] at hstep
        split at hstep
        · cases hstep
          rcases hok with ⟨hnd, hbd⟩
          constructor
          · simp only [List.map_append, List.map_cons, List.map_nil]
            rw [List.nodup_append]
            refine ⟨hnd, List.nodup_singleton _, ?_⟩
            intro x hx hx2
            simp only [List.mem_singleton] at hx2
            subst hx2
            obtain ⟨a, ha, hax⟩ := List.mem_map.mp hx
            have := hbd a ha
            omega
          · intro a ha
            simp only [List.mem_append, List.mem_singleton] at ha
            rcases ha with ha | ha
            · exact Nat.lt_trans (hbd a ha) (Nat.lt_succ_self _)
            · subst ha; exact Nat.lt_succ_self _
        · exact absurd hstep (by simp)
      | finishNatural i =>
        simp only [fanStep] at hstep
        split at hstep
        · split at hstep
          · exact absurd hstep (by simp)
          · cases hfetch : cfg.fetch i with
            | ok comments =>
              rw [hfetch] at hstep
              cases hstep
              exact fanActiveOk_of_filter s _ i hok rfl rfl
            | error e2 =>
              rw [hfetch] at hstep
              cases hfe : s.firstErr with
              | some e0 =>
                rw [hfe] at hstep
                simp only [Option.isSome_some, if_pos] at hstep
                cases hstep
                exact fanActiveOk_of_filter s _ i hok rfl rfl
              | none =>
                rw [hfe] at hstep
                simp only [Option.isSome_none, Bool.false_eq_true, if_neg] at hstep
                cases hstep
                exact fanActiveOk_of_filter s _ i hok rfl rfl
        · exact absurd hstep (by simp)
      | finishAborted i =>
        simp only [fanStep] at hstep
        split at hstep
        · split at hstep
          · cases hstep
            exact fanActiveOk_of_filter s _ i hok rfl rfl
          · exact absurd hstep (by simp)
        · exact absurd hstep (by simp)

/-- With distinct active indices, the lookup of an active entry returns
exactly that entry. -/
theorem find_active_of_mem : ∀ (l : List (Nat × Bool)) (i : Nat) (b : Bool),
    (l.map Prod.fst).Nodup → (i, b) ∈ l →
    l.find? (fun a => a.1 == i) = some (i, b) := by
  intro l
  induction l with
  | nil => intro i b _ hm; exact absurd hm (List.not_mem_nil _)
  | cons hd tl ih =>
    intro i b hnd hm
    rw [List.map_cons, List.nodup_cons] at hnd
    by_cases hh : hd.1 = i
    · rw [List.find?_cons_of_pos _ (by simp [hh])]
      rcases List.mem_cons.mp hm with hm | hm
      · rw [hm]
      · exfalso
        apply hnd.1
        rw [hh]
        exact List.mem_map.mpr ⟨(i, b), hm, rfl⟩
    · rw [List.find?_cons_of_neg _ (by simp [hh])]
      rcases List.mem_cons.mp hm with hm | hm
      · exact absurd (by rw [← hm]) hh
      · exact ih i b hnd.2 hm

/-- A fetch dispatched after cancellation (recorded with flag `true`)
cannot complete naturally: its request dies on the cancelled context
before reaching the server. -/
theorem fanStep_no_natural_after_cancel (cfg : FanoutCfg) (s : FanoutState) (i : Nat)
    (hnd : (s.active.map Prod.fst).Nodup) (hm : (i, true) ∈ s.active) :
    fanStep cfg s (FanEv.finishNatural i) = none := by
  simp only [fanStep, find_active_of_mem s.active i true hnd hm]
  simp

/-! ## Claim theorems: concurrent enrichment -/

/-- C3: in every complete schedule of the errgroup fan-out (cap 5) in
which some fetch fails, the enrichment returns the error of the first
naturally failing fetch, the caller never observes the (possibly
partially filled) comments mapping — the failure outcome carries none —
and from the first failure on the shared context is cancelled, so every
fetch dispatched afterwards can only abort with the cancellation error,
never complete naturally. -/
theorem enrichment_first_failure_no_partial_map (cfg : FanoutCfg)
    (events : List FanEv) (e : String)
    (hc : fanComplete cfg events = true)
    (hf : firstNatFail cfg events = some e) :
    runTasksDetails cfg events = some (DetailsOutcome.failure e) ∧
    (∀ m, runTasksDetails cfg events ≠ some (DetailsOutcome.success m)) ∧
    (∀ pre post s1, events = pre ++ post →
       fanRun cfg fanInit pre = some s1 →
       (firstNatFail cfg pre).isSome →
       s1.canceled = true ∧
       ∀ i, (i, true) ∈ s1.active →
         fanStep cfg s1 (FanEv.finishNatural i) = none) := by
  have hmain : runTasksDetails cfg events = some (DetailsOutcome.failure e) := by
    unfold fanComplete at hc
    cases hrun : fanRun cfg fanInit events with
    | none => rw [hrun] at hc; exact absurd hc (by simp)
    | some s =>
      rw [hrun] at hc
      have hc2 : (s.nextIdx == cfg.tasks.length && s.active.isEmpty) = true := hc
      have h1 := fanRun_firstErr cfg events fanInit s rfl hrun
      have h2 : s.firstErr = firstNatFail cfg events := h1.1
      simp only [runTasksDetails, hrun]
      rw [if_pos hc2, h2, hf]
  refine ⟨hmain, fun m hm => by rw [hmain] at hm; exact absurd hm (by simp), ?_⟩
  intro pre post s1 heq hpre hsome
  have h1 := fanRun_firstErr cfg pre fanInit s1 rfl hpre
  have h2 : s1.firstErr = firstNatFail cfg pre := h1.1
  have hcanc : s1.canceled = true := by rw [h1.2, h2]; exact hsome
  have hok := fanRun_activeOk cfg pre fanInit s1
    ⟨by simp [fanInit], by simp [fanInit]⟩ hpre
  exact ⟨hcanc, fun i hm => fanStep_no_natural_after_cancel cfg s1 i hok.1 hm⟩

/-- C3 witness: the spec's scenario — 7 parent tasks, concurrency cap 5,
the 3rd-dispatched fetch fails with "boom"; a complete schedule in which
one other in-flight fetch still completes naturally and the rest abort
on the cancelled context yields the failure outcome with no mapping. -/
theorem enrichment_first_failure_no_partial_map_witness :
    runTasksDetails
        { tasks := [{ id := "t1" }, { id := "t2" }, { id := "t3" }, { id := "t4" },
                    { id := "t5" }, { id := "t6" }, { id := "t7" }],
          fetch := fun i => if i = 2 then Except.error "boom" else Except.ok [] }
        [FanEv.start, FanEv.start, FanEv.start, FanEv.start, FanEv.start,
         FanEv.finishNatural 0, FanEv.start, FanEv.finishNatural 2, FanEv.start,
         FanEv.finishNatural 1, FanEv.finishAborted 3, FanEv.finishAborted 4,
         FanEv.finishAborted 5, FanEv.finishAborted 6] =
      some (DetailsOutcome.failure "boom") :=
  (enrichment_first_failure_no_partial_map
    { tasks := [{ id := "t1" }, { id := "t2" }, { id := "t3" }, { id := "t4" },
                { id := "t5" }, { id := "t6" }, { id := "t7" }],
      fetch := fun i => if i = 2 then Except.error "boom" else Except.ok [] }
    [FanEv.start, FanEv.start, FanEv.start, FanEv.start, FanEv.start,
     FanEv.finishNatural 0, FanEv.start, FanEv.finishNatural 2, FanEv.start,
     FanEv.finishNatural 1, FanEv.finishAborted 3, FanEv.finishAborted 4,
     FanEv.finishAborted 5, FanEv.finishAborted 6] "boom" rfl rfl).1

end TodoistCli
